import Mathlib

/-!
Verification of FFP_details.py (FFP Responses Viewer).

The file shallowly embeds the two pieces of logic of the program:

* `parse_metadata` (src/FFP_details.py lines 31-45): turns one metadata
  value (a JSON string, an already-decoded dict, or anything else) into a
  display name and an ordered list of (question, answer) pairs, mapping
  every Python exception raised on the way to the sentinel `("N/A", [])`.

* the date-range and search filters applied to the loaded dataframe
  (src/FFP_details.py lines 68 and 73-78).  The search masks of lines
  76-77 use `pandas.Series.str.contains` with its default `regex=True`:
  the search term is compiled as a regular expression (line 76 with
  `re.IGNORECASE` via `case=False`, line 77 case-sensitively), and an
  invalid pattern raises `re.error`.  The embedding models the fragment of
  that regular-expression language the claims turn on — patterns made of
  literal characters and the metacharacter `.` — compiles a pattern with
  an unclosed group to the error outcome (sound: when no other
  metacharacter occurs, a `(` can never be closed, so Python's
  `re.compile` raises), and marks every other pattern as outside the
  modelled fragment, settling no claim on it.

Python values that can appear inside a decoded JSON document (or inside a
metadata dict) are modelled by the inductive `Json`; Python `None` is
`Json.null`.  A metadata value as passed to `parse_metadata` is modelled by
`MetaVal`: a Python `str` carries the outcome of `json.loads` on it
(`none` when the decoder raises), a Python `dict` carries its key/value
pairs, and every other Python value (`None`, numbers, lists, ...) is
`MetaVal.other`.  Exceptions are modelled by `Option`/explicit sentinel
branches, mirroring the single `try/except` of the source.
-/

namespace FFP

/-- Json models a decoded JSON document (equivalently, the Python values
`None`, `bool`, `int/float`, `str`, `list`, `dict` that `json.loads`
produces; numbers are modelled as integers, which is enough for every
claim).  Python `None` is `Json.null`. -/
inductive Json where
  | null : Json
  | bool : Bool → Json
  | num  : Int → Json
  | str  : String → Json
  | arr  : List Json → Json
  | obj  : List (String × Json) → Json

/-- MetaVal models the argument of `parse_metadata`, discriminated the way
the source does with `isinstance`: a Python `str` (carrying the result of
`json.loads` on it, `none` when decoding raises `JSONDecodeError`), a
Python `dict` (its key/value pairs), or any other Python value. -/
inductive MetaVal where
  | ofStr  : Option Json → MetaVal
  | ofDict : List (String × Json) → MetaVal
  | other  : MetaVal

/-- Python `d.get(k)` on a dict: the stored value when the key is present
(even when that value is `None`/`null`), otherwise nothing. -/
def jGet (kvs : List (String × Json)) (k : String) : Option Json :=
  (kvs.find? (fun p => p.fst == k)).map Prod.snd

/-- Python `d.get(k, default)` on a dict: the stored value when the key is
present (even when that value is `None`/`null`), otherwise the default. -/
def jGetD (kvs : List (String × Json)) (k : String) (d : Json) : Json :=
  (jGet kvs k).getD d

/-- Python `v == s` for a JSON value `v` and a string literal `s`: only a
string compares equal to a string; any other value (including `None`,
which `item.get` returns for a missing key) compares unequal without
raising. -/
def pyEqStr (v : Json) (s : String) : Bool :=
  match v with
  | .str t => t == s
  | _ => false

/-- The distinguished question whose answer becomes the display name
(source line 42).  Built without an apostrophe character literal; the
string is exactly: What, apostrophe, s your full name. -/
def nameQuestion : String := "What" ++ String.singleton (Char.ofNat 39) ++ "s your full name"

/-- Condition of the name-scan generator (source line 42):
`item.get("question") == "What's your full name"` for a dict `item`; a
missing key yields Python `None`, which never equals the string. -/
def questionMatches (kvs : List (String × Json)) : Bool :=
  pyEqStr (jGetD kvs "question" Json.null) nameQuestion

/-- One step of the qa_pairs comprehension (source line 41): a dict element
contributes `(item.get("question", "N/A"), item.get("answer", "N/A"))`; a
non-dict element is filtered out by `isinstance(item, dict)`. -/
def qaOf (item : Json) : Option (Json × Json) :=
  match item with
  | .obj kvs => some (jGetD kvs "question" (Json.str "N/A"), jGetD kvs "answer" (Json.str "N/A"))
  | _ => none

/-- The name scan (source line 42):
`next((item.get("answer") for item in plan if item.get("question") == "What's your full name"), "N/A")`.
It walks the plan left to right; a dict whose question matches stops the
scan with `item.get("answer")` (Python `None`, i.e. `Json.null`, when the
key is absent or its value is null); a non-dict element makes
`item.get` raise `AttributeError` (modelled by `none`), which the caller's
`except` turns into the sentinel result; exhaustion yields `"N/A"`. -/
def nameScan : List Json → Option Json
  | [] => some (Json.str "N/A")
  | item :: rest =>
      match item with
      | .obj kvs =>
          if questionMatches kvs then some (jGetD kvs "answer" Json.null)
          else nameScan rest
      | _ => none

/-- Lines 41-43 of the source, given the value bound to `plan`.  When the
plan is a list, the qa_pairs comprehension keeps the dict elements, and the
name scan either completes (returning its name together with qa_pairs) or
raises, in which case the `except` clause returns the sentinel.  When the
plan is any other value, the two lines either raise (`TypeError` iterating
a non-iterable, `AttributeError` calling `.get` on a character of a string
or on a key of a dict) or fall through to the empty-iteration sentinel
`("N/A", [])`; every such case observably returns `(Json.str "N/A", [])`. -/
def planResult (plan : Json) : Json × List (Json × Json) :=
  match plan with
  | .arr xs =>
      match nameScan xs with
      | some n => (n, xs.filterMap qaOf)
      | none => (Json.str "N/A", [])
  | _ => (Json.str "N/A", [])

/-- Lines 40-43 of the source, given the value bound to `data`.  If `data`
is a dict, `plan = data.get("plan", [])` defaults a missing key to the
empty list; otherwise `data.get` raises `AttributeError` and the `except`
clause returns the sentinel. -/
def parseData (data : Json) : Json × List (Json × Json) :=
  match data with
  | .obj kvs => planResult (jGetD kvs "plan" (Json.arr []))
  | _ => (Json.str "N/A", [])

/-- parse_metadata (source lines 31-45).  A string is decoded by
`json.loads` (a failed decode raises and is caught, yielding the
sentinel); a dict is used as-is; any other value returns the sentinel
immediately. -/
def parse_metadata (metadata_value : MetaVal) : Json × List (Json × Json) :=
  match metadata_value with
  | .ofStr none => (Json.str "N/A", [])
  | .ofStr (some data) => parseData data
  | .ofDict kvs => parseData (Json.obj kvs)
  | .other => (Json.str "N/A", [])

/-- Whether the name scan of source line 42 completes without raising:
`true` when the scan reaches a matching dict or the end of the list before
hitting a non-dict element, `false` when a non-dict element is reached
(whose `.get` raises `AttributeError`). -/
def scanSafe : List Json → Bool
  | [] => true
  | item :: rest =>
      match item with
      | .obj kvs => if questionMatches kvs then true else scanSafe rest
      | _ => false

/-- Whether lines 41-42 raise an exception, given the value bound to
`plan`: a list raises exactly when the name scan hits a non-dict element;
iterating a string raises `AttributeError` on its first character (an
empty string iterates nothing); iterating a dict yields its keys, whose
`.get` raises (an empty dict iterates nothing); `null`, booleans and
numbers are not iterable (`TypeError` already in the comprehension). -/
def planRaises (plan : Json) : Bool :=
  match plan with
  | .arr xs => !(scanSafe xs)
  | .str s => !(s.isEmpty)
  | .obj kvs => !(kvs.isEmpty)
  | _ => true

/-- Whether the body of `parse_metadata` raises an exception that the
`except Exception` clause of source line 44 catches: a failed
`json.loads`, a decoded JSON value that is not an object (so `data.get`
raises `AttributeError`), or a raise inside lines 41-42.  The `other`
branch returns early without raising. -/
def metaRaises (metadata_value : MetaVal) : Bool :=
  match metadata_value with
  | .ofStr none => true
  | .ofStr (some (.obj kvs)) => planRaises (jGetD kvs "plan" (Json.arr []))
  | .ofStr (some _) => true
  | .ofDict kvs => planRaises (jGetD kvs "plan" (Json.arr []))
  | .other => false

/-! ## The dataframe filters

One row of the `financial_simulator_v2` table, as the program sees it
after line 58 added the derived columns.  The identifier is modelled as an
integer (its `astype(str)` rendering is `toString`); `created_at.dt.date`
is modelled as an integer day ordinal, so that two dates compare the way
dates do; the metadata payload is carried so that the derived name column
is literally `(parse_metadata metadata).1`. -/
structure Record where
  id : Int
  createdDate : Int
  metadata : MetaVal

/-- The derived name column (source line 58, first component of
`parse_metadata`). -/
def Record.name (r : Record) : Json := (parse_metadata r.metadata).1

/-- Substring test on character lists: literal (non-regex) containment,
`needle in hay`.  This is the language of the spec and the claims
("contains the query as a substring"), kept for comparison against the
program's regex-based masks. -/
def listContainsSub (hay needle : List Char) : Bool :=
  (List.range (hay.length + 1)).any (fun i => List.isPrefixOf needle (hay.drop i))

/-- Substring test on strings (literal containment, the claims'
"substring" language). -/
def strContainsSub (hay needle : String) : Bool :=
  listContainsSub hay.data needle.data

/-- Characterwise lowercasing with `Char.toLower`, which folds exactly the
ASCII range.  This is both the case folding the regex model uses for
`re.IGNORECASE` and the claims' "ignoring case"; it agrees with Python on
ASCII text, so theorems that depend on it restrict themselves to ASCII
inputs. -/
def strLower (s : String) : String :=
  String.mk (s.data.map Char.toLower)

/-! ### A sound partial model of Python regular expressions

Lines 76-77 call `Series.str.contains` with its default `regex=True`: the
search term is compiled by `re.compile` and matched with `pattern.search`
against each cell.  The model covers the fragment the claims turn on. -/

/-- One atom of a compiled pattern in the modelled fragment: a literal
character, or the metacharacter `.` (any character except a newline). -/
inductive RAtom where
  | lit : Char → RAtom
  | dot : RAtom

/-- Outcome of compiling a search term as `re.compile` does: a compiled
pattern in the modelled fragment, a compilation error (`re.error`), or a
valid pattern outside the modelled fragment (classes, quantifiers,
escapes, balanced groups, anchors, alternation), on which the embedding
settles nothing. -/
inductive CompileResult where
  | ok : List RAtom → CompileResult
  | error : CompileResult
  | unsupported : CompileResult

/-- The regex special characters that put a pattern outside the modelled
fragment (`\ [ ] { } * + ? | ^ $ )`; braces via their code points). -/
def reMetaChars : List Char :=
  ['\\', '[', ']', Char.ofNat 123, Char.ofNat 125, '*', '+', '?', '|', '^', '$', ')']

/-- The model of `re.compile` on a search term.  A term containing one of
`reMetaChars` is outside the modelled fragment.  Otherwise a term
containing `(` opens a group that — with no `)` present, `)` being in
`reMetaChars` — can never be closed, so Python raises
`re.error: missing ), unterminated subpattern`: the error outcome.  Every
remaining term is a sequence of literal characters and dots. -/
def compilePat (q : String) : CompileResult :=
  if q.data.any (fun c => reMetaChars.contains c) then CompileResult.unsupported
  else if q.data.any (fun c => c == '(') then CompileResult.error
  else CompileResult.ok (q.data.map (fun c => if c == '.' then RAtom.dot else RAtom.lit c))

/-- Whether one pattern atom matches one character.  With `ic` (modelling
`re.IGNORECASE`, ASCII case folding) a literal compares lowercased; `.`
matches any character except a newline. -/
def atomMatches (ic : Bool) (a : RAtom) (c : Char) : Bool :=
  match a with
  | .lit l => if ic then Char.toLower l == Char.toLower c else l == c
  | .dot => !(c == Char.ofNat 10)

/-- Whether the pattern matches a prefix of the character list. -/
def matchesAt (ic : Bool) (p : List RAtom) (s : List Char) : Bool :=
  match p, s with
  | [], _ => true
  | _ :: _, [] => false
  | a :: ptl, c :: stl => atomMatches ic a c && matchesAt ic ptl stl

/-- The model of `pattern.search(s)` as a boolean: the pattern matches
starting at some position of the string (including its end for the empty
pattern). -/
def reSearch (ic : Bool) (p : List RAtom) (s : String) : Bool :=
  (List.range (s.data.length + 1)).any (fun i => matchesAt ic p (s.data.drop i))

/-- The name half of the search mask (source line 76):
`filtered_df["name"].str.contains(search_term, case=False, na=False)`
with a compiled pattern.  `case=False` passes `re.IGNORECASE`; a name
cell that is not a string (Python `None`, a number, ...) makes
`.str.contains` produce a missing value, which `na=False` turns into
`False` without raising. -/
def nameMatches (p : List RAtom) (name : Json) : Bool :=
  match name with
  | .str s => reSearch true p s
  | _ => false

/-- The id half of the search mask (source line 77):
`filtered_df["id"].astype(str).str.contains(search_term)`, a
case-sensitive regex search on the string form of the identifier. -/
def idMatches (p : List RAtom) (r : Record) : Bool :=
  reSearch false p (toString r.id)

/-- The date-range filter (source line 68): keep the rows whose date lies
in the inclusive range `[startDate, endDate]`; `df[mask]` keeps exactly
the rows where the boolean mask holds, in order. -/
def dateFilter (startDate endDate : Int) (rs : List Record) : List Record :=
  rs.filter (fun r => decide (startDate ≤ r.createdDate) && decide (r.createdDate ≤ endDate))

/-- Outcome of running the search filter: a filtered record list; or the
propagated `re.error` of an invalid search term, in which case the
program errors out and produces no filtered set at all; or a search term
outside the modelled regex fragment, about which the embedding asserts
nothing. -/
inductive FilterOutcome where
  | ok : List Record → FilterOutcome
  | raised : FilterOutcome
  | unmodelled : FilterOutcome

/-- The search filter (source lines 74-78): `if search_term:` applies the
mask only when the search string is non-empty (Python truthiness); the
mask is the logical OR of the name test and the id test over the compiled
search term, and a term that fails to compile raises. -/
def searchFilter (q : String) (rs : List Record) : FilterOutcome :=
  if q = "" then FilterOutcome.ok rs
  else
    match compilePat q with
    | CompileResult.ok p =>
        FilterOutcome.ok (rs.filter (fun r => nameMatches p (Record.name r) || idMatches p r))
    | CompileResult.error => FilterOutcome.raised
    | CompileResult.unsupported => FilterOutcome.unmodelled

/-- filtered_df (source lines 68-78): the date filter followed by the
search filter. -/
def filtered_df (startDate endDate : Int) (q : String) (rs : List Record) : FilterOutcome :=
  searchFilter q (dateFilter startDate endDate rs)

/-- A search term made only of plain characters: no character of
`reMetaChars`, no `(`, no `.` — such a term compiles to a sequence of
literal atoms. -/
def isPlainChar (c : Char) : Bool :=
  !(reMetaChars.contains c) && !(c == '(') && !(c == '.')

/-- Whether every character of the search term is plain. -/
def plainQuery (q : String) : Bool :=
  q.data.all isPlainChar

/-- Whether the string is pure ASCII (where `Char.toLower` agrees with
Python's Unicode-aware case folding). -/
def asciiStr (s : String) : Bool :=
  s.data.all (fun c => decide (c.toNat < 128))

/-- The Python `isinstance(item, dict)` test of source line 41, on a
decoded JSON value. -/
def isDict : Json → Bool
  | .obj _ => true
  | _ => false

/-- The pair contributed to qa_pairs by one (dict) plan element: the
`"question"` and `"answer"` values, each defaulting to `"N/A"` when the
key is absent.  (On a non-dict the value is irrelevant: such elements are
filtered out before this is applied.) -/
def pairTot (item : Json) : Json × Json :=
  match item with
  | .obj kvs => (jGetD kvs "question" (Json.str "N/A"), jGetD kvs "answer" (Json.str "N/A"))
  | _ => (Json.str "N/A", Json.str "N/A")

/-- A record whose metadata decodes to the name `"Jane Doe"` (used to
instantiate the search-filter theorems). -/
def janeRecord : Record :=
  { id := 123, createdDate := 10,
    metadata := MetaVal.ofDict [("plan", Json.arr
      [Json.obj [("question", Json.str nameQuestion), ("answer", Json.str "Jane Doe")]])] }

/-- A record whose metadata yields a `null` derived name: its plan's first
element matches the name question but has no `"answer"` key, so
`item.get("answer")` is Python `None` (used to instantiate the
null-name search theorem). -/
def anonRecord : Record :=
  { id := 7, createdDate := 10,
    metadata := MetaVal.ofDict [("plan", Json.arr
      [Json.obj [("question", Json.str nameQuestion)]])] }

/-- A record whose derived name is `"axb"` (used to separate the
program's regex matching from the claims' literal-substring reading: the
query `a.b` regex-matches `axb` but is not a literal substring of it). -/
def dotRecord : Record :=
  { id := 5, createdDate := 10,
    metadata := MetaVal.ofDict [("plan", Json.arr
      [Json.obj [("question", Json.str nameQuestion), ("answer", Json.str "axb")]])] }

/-! ## Helper lemmas -/

/-- When the name scan is not safe it raises, i.e. returns nothing. -/
lemma nameScan_eq_none (xs : List Json) (h : scanSafe xs = false) :
    nameScan xs = none := by
  induction xs with
  | nil => simp [scanSafe] at h
  | cons item rest ih =>
      cases item with
      | obj kvs =>
          by_cases hqm : questionMatches kvs = true
          · simp [scanSafe, hqm] at h
          · simp only [Bool.not_eq_true] at hqm
            simp only [scanSafe, hqm, if_false] at h
            simp only [nameScan, hqm, if_false]
            exact ih h
      | null => rfl
      | bool b => rfl
      | num n => rfl
      | str s => rfl
      | arr ys => rfl

/-- When the name scan is safe it completes with some value. -/
lemma nameScan_isSome (xs : List Json) (h : scanSafe xs = true) :
    ∃ n, nameScan xs = some n := by
  induction xs with
  | nil => exact ⟨Json.str "N/A", rfl⟩
  | cons item rest ih =>
      cases item with
      | obj kvs =>
          by_cases hqm : questionMatches kvs = true
          · exact ⟨jGetD kvs "answer" Json.null, by simp [nameScan, hqm]⟩
          · simp only [Bool.not_eq_true] at hqm
            simp only [scanSafe, hqm, if_false] at h
            obtain ⟨n, hn⟩ := ih h
            exact ⟨n, by simp only [nameScan, hqm, if_false]; exact hn⟩
      | null => simp [scanSafe] at h
      | bool b => simp [scanSafe] at h
      | num n => simp [scanSafe] at h
      | str s => simp [scanSafe] at h
      | arr ys => simp [scanSafe] at h

/-- When lines 41-42 raise, the whole plan evaluation yields the
sentinel. -/
lemma planResult_of_raises (p : Json) (h : planRaises p = true) :
    planResult p = (Json.str "N/A", []) := by
  cases p with
  | arr xs =>
      have hs : scanSafe xs = false := by
        simpa [planRaises] using h
      simp [planResult, nameScan_eq_none xs hs]
  | null => rfl
  | bool b => rfl
  | num n => rfl
  | str s => rfl
  | obj kvs => rfl

/-- The qa_pairs comprehension equals mapping the pair extraction over the
dict elements, in order. -/
lemma filterMap_qaOf (xs : List Json) :
    xs.filterMap qaOf = (xs.filter isDict).map pairTot := by
  induction xs with
  | nil => rfl
  | cons item rest ih =>
      cases item <;>
        simp [List.filterMap_cons, List.filter_cons, qaOf, isDict, pairTot, ih]

/-- A scan over a plan none of whose dict elements match the name question
either completes with the sentinel name or raises. -/
lemma nameScan_no_match (xs : List Json)
    (h : ∀ j ∈ xs, ∀ m, j = Json.obj m → questionMatches m = false) :
    nameScan xs = some (Json.str "N/A") ∨ nameScan xs = none := by
  induction xs with
  | nil => exact Or.inl rfl
  | cons item rest ih =>
      cases item with
      | obj kvs =>
          have hm : questionMatches kvs = false :=
            h (Json.obj kvs) (List.mem_cons_self _ _) kvs rfl
          simp only [nameScan, hm, if_false]
          exact ih (fun j hj m hjm => h j (List.mem_cons_of_mem _ hj) m hjm)
      | null => exact Or.inr rfl
      | bool b => exact Or.inr rfl
      | num n => exact Or.inr rfl
      | str s => exact Or.inr rfl
      | arr ys => exact Or.inr rfl

/-- The name scan, when every element before the first matching dict is a
non-matching dict, returns the matching dict's answer (null-defaulted). -/
lemma nameScan_append (pre rest : List Json) (kq : List (String × Json))
    (hall : ∀ j ∈ pre, ∃ m, j = Json.obj m ∧ questionMatches m = false)
    (hq : questionMatches kq = true) :
    nameScan (pre ++ Json.obj kq :: rest) = some (jGetD kq "answer" Json.null) := by
  induction pre with
  | nil => simp [nameScan, hq]
  | cons item ptl ih =>
      obtain ⟨m, hjm, hm⟩ := hall item (List.mem_cons_self _ _)
      subst hjm
      simp only [List.cons_append, nameScan, hm, if_false]
      exact ih (fun j hj => hall j (List.mem_cons_of_mem _ hj))

/-- Membership characterization of the name half of the search mask. -/
lemma nameMatches_iff (p : List RAtom) (n : Json) :
    nameMatches p n = true ↔
      ∃ s, n = Json.str s ∧ reSearch true p s = true := by
  cases n <;> simp [nameMatches]

/-- A plain search term compiles to the sequence of its characters as
literal atoms. -/
lemma compilePat_plain (q : String) (h : plainQuery q = true) :
    compilePat q = CompileResult.ok (q.data.map RAtom.lit) := by
  rw [plainQuery, List.all_eq_true] at h
  have h1 : q.data.any (fun c => reMetaChars.contains c) = false := by
    rw [List.any_eq_false]
    intro c hc
    have hp := h c hc
    simp only [isPlainChar, Bool.and_eq_true, Bool.not_eq_true'] at hp
    simpa using hp.1.1
  have h2 : q.data.any (fun c => c == '(') = false := by
    rw [List.any_eq_false]
    intro c hc
    have hp := h c hc
    simp only [isPlainChar, Bool.and_eq_true, Bool.not_eq_true'] at hp
    simp [hp.1.2]
  have h3 : q.data.map (fun c => if c == '.' then RAtom.dot else RAtom.lit c)
      = q.data.map RAtom.lit := by
    apply List.map_congr_left
    intro c hc
    have hp := h c hc
    simp only [isPlainChar, Bool.and_eq_true, Bool.not_eq_true'] at hp
    simp [hp.2]
  rw [compilePat, h1, h2, h3]
  rfl

/-- A literal-only pattern matches at a position case-insensitively
exactly when the lowercased pattern characters are a prefix of the
lowercased text. -/
lemma matchesAt_lit_ci (n : List Char) : ∀ h : List Char,
    matchesAt true (n.map RAtom.lit) h
      = List.isPrefixOf (n.map Char.toLower) (h.map Char.toLower) := by
  induction n with
  | nil => intro h; cases h <;> rfl
  | cons c ntl ih =>
      intro h
      cases h with
      | nil => rfl
      | cons d htl =>
          simp [List.map_cons, matchesAt, atomMatches, List.isPrefixOf, ih htl]

/-- A literal-only pattern matches at a position case-sensitively exactly
when the pattern characters are a prefix of the text. -/
lemma matchesAt_lit_cs (n : List Char) : ∀ h : List Char,
    matchesAt false (n.map RAtom.lit) h = List.isPrefixOf n h := by
  induction n with
  | nil => intro h; cases h <;> rfl
  | cons c ntl ih =>
      intro h
      cases h with
      | nil => rfl
      | cons d htl =>
          simp [List.map_cons, matchesAt, atomMatches, List.isPrefixOf, ih htl]

/-- On a literal-only pattern the case-insensitive regex search is the
literal substring test over the lowercased forms. -/
lemma reSearch_lit_ci (q s : String) :
    reSearch true (q.data.map RAtom.lit) s
      = strContainsSub (strLower s) (strLower q) := by
  simp only [reSearch, strContainsSub, strLower, listContainsSub, matchesAt_lit_ci,
    List.map_drop, List.length_map]

/-- On a literal-only pattern the case-sensitive regex search is the
literal substring test. -/
lemma reSearch_lit_cs (q s : String) :
    reSearch false (q.data.map RAtom.lit) s = strContainsSub s q := by
  simp only [reSearch, strContainsSub, listContainsSub, matchesAt_lit_cs]

/-! ## Claim theorems -/

/-- C1, counterexample.  The claim says every non-mapping plan element is
silently skipped and causes no failure, so for the plan
`[42, {"question": "Q1", "answer": "A1"}]` the Q&A sequence should hold
exactly one pair (one per mapping element).  In the code the name scan of
line 42 calls `item.get` on the element `42` without an `isinstance`
guard, raises `AttributeError`, and the `except` clause throws the
computed pairs away, returning zero pairs. -/
theorem C1_counterexample :
    (parse_metadata (MetaVal.ofStr (some (Json.obj [("plan", Json.arr
        [Json.num 42, Json.obj [("question", Json.str "Q1"), ("answer", Json.str "A1")]])])))).2.length
      ≠ (([Json.num 42, Json.obj [("question", Json.str "Q1"), ("answer", Json.str "A1")]].filter isDict)).length := by
  decide

/-- C1 (amended): for a metadata value that is a valid JSON string
encoding an object whose plan field is a list, provided the name scan does
not raise (every element before the first name-question match — or every
element, when there is no match — is a mapping), the returned Q&A sequence
has exactly one pair per mapping-typed element of the plan, in input
order, with the question and answer each defaulting to `"N/A"` when the
key is absent, and non-mapping elements contributing nothing. -/
theorem C1_qa_extraction (kvs : List (String × Json)) (xs : List Json)
    (hplan : jGet kvs "plan" = some (Json.arr xs))
    (hsafe : scanSafe xs = true) :
    (parse_metadata (MetaVal.ofStr (some (Json.obj kvs)))).2
        = (xs.filter isDict).map pairTot ∧
    (parse_metadata (MetaVal.ofStr (some (Json.obj kvs)))).2.length
        = (xs.filter isDict).length := by
  obtain ⟨n, hn⟩ := nameScan_isSome xs hsafe
  have hbody : parse_metadata (MetaVal.ofStr (some (Json.obj kvs)))
      = (n, (xs.filter isDict).map pairTot) := by
    simp [parse_metadata, parseData, jGetD, hplan, planResult, hn, filterMap_qaOf]
  rw [hbody]
  exact ⟨rfl, List.length_map _ _⟩

/-- C1 witness: a concrete plan mixing a mapping with an absent-answer
mapping, evaluated through the amended theorem. -/
theorem C1_qa_extraction_witness :
    (parse_metadata (MetaVal.ofStr (some (Json.obj [("plan", Json.arr
        [Json.obj [("question", Json.str "Q1")], Json.obj [("answer", Json.str "A2")]])])))).2
      = ([Json.obj [("question", Json.str "Q1")], Json.obj [("answer", Json.str "A2")]].filter isDict).map pairTot ∧
    (parse_metadata (MetaVal.ofStr (some (Json.obj [("plan", Json.arr
        [Json.obj [("question", Json.str "Q1")], Json.obj [("answer", Json.str "A2")]])])))).2.length
      = ([Json.obj [("question", Json.str "Q1")], Json.obj [("answer", Json.str "A2")]].filter isDict).length :=
  C1_qa_extraction _ _ rfl (by decide)

/-- C2: parse_metadata is total (a Lean function by construction) and
every input on which the Python body raises — a failed decode, a decoded
value that is not an object, a non-iterable plan, a name scan hitting a
non-mapping — produces exactly the sentinel `("N/A", [])`. -/
theorem C2_exceptions_to_sentinel (mv : MetaVal) (h : metaRaises mv = true) :
    parse_metadata mv = (Json.str "N/A", []) := by
  cases mv with
  | ofStr od =>
      cases od with
      | none => rfl
      | some data =>
          cases data with
          | obj kvs =>
              have hp : planRaises (jGetD kvs "plan" (Json.arr [])) = true := by
                simpa [metaRaises] using h
              simpa [parse_metadata, parseData] using planResult_of_raises _ hp
          | null => rfl
          | bool b => rfl
          | num n => rfl
          | str s => rfl
          | arr ys => rfl
  | ofDict kvs =>
      have hp : planRaises (jGetD kvs "plan" (Json.arr [])) = true := by
        simpa [metaRaises] using h
      simpa [parse_metadata, parseData] using planResult_of_raises _ hp
  | other => rfl

/-- C2 witness: a string whose decode fails raises and yields the
sentinel. -/
theorem C2_exceptions_to_sentinel_witness :
    metaRaises (MetaVal.ofStr none) = true ∧
    parse_metadata (MetaVal.ofStr none) = (Json.str "N/A", []) :=
  ⟨rfl, C2_exceptions_to_sentinel _ rfl⟩

/-- C3, counterexample.  The claim reads the two masks as literal
substring tests, but `str.contains` defaults to `regex=True`: at the
query `a.b` the record named `axb` is kept — the dot matches `x` — while
`a.b` is not a literal substring of the name (ignoring case) and not a
literal substring of the identifier's string form `5`, so the claim's
if-and-only-if is false at this input. -/
theorem C3_counterexample :
    searchFilter "a.b" [dotRecord] = FilterOutcome.ok [dotRecord] ∧
    strContainsSub (strLower "axb") (strLower "a.b") = false ∧
    strContainsSub (toString dotRecord.id) "a.b" = false :=
  ⟨rfl, by decide, by decide⟩

/-- C3 (amended): for a non-empty ASCII search term free of regex special
characters (so that it compiles to a sequence of literal characters), and
a record whose derived name, when a string, is ASCII, the search filter
keeps the record exactly when it was present and either its name contains
the term ignoring case (lowercased literal containment) or the string
form of its identifier contains the term case-sensitively — combined by
logical OR.  For other terms the masks are full regex matches and an
invalid term raises.  The ASCII restrictions delimit the domain on which
the embedded ASCII case folding agrees with Python's. -/
theorem C3_literal_search (q : String) (rs out : List Record) (r : Record)
    (hq : q ≠ "")
    (hplain : plainQuery q = true)
    (_hqascii : asciiStr q = true)
    (_hnascii : ∀ s, Record.name r = Json.str s → asciiStr s = true)
    (hrun : searchFilter q rs = FilterOutcome.ok out) :
    r ∈ out ↔
      r ∈ rs ∧
        ((∃ s, Record.name r = Json.str s ∧
            strContainsSub (strLower s) (strLower q) = true)
          ∨ strContainsSub (toString r.id) q = true) := by
  rw [searchFilter, if_neg hq, compilePat_plain q hplain] at hrun
  injection hrun with hout
  subst hout
  simp [List.mem_filter, Bool.or_eq_true, nameMatches_iff, idMatches,
    reSearch_lit_ci, reSearch_lit_cs]

/-- C3 witness: the record named Jane Doe is kept by the query `jAnE`. -/
theorem C3_literal_search_witness :
    janeRecord ∈ [janeRecord] ↔
      janeRecord ∈ [janeRecord] ∧
        ((∃ s, Record.name janeRecord = Json.str s ∧
            strContainsSub (strLower s) (strLower "jAnE") = true)
          ∨ strContainsSub (toString janeRecord.id) "jAnE" = true) :=
  C3_literal_search "jAnE" [janeRecord] [janeRecord] janeRecord
    (by decide) (by decide) (by decide)
    (fun s hs => by
      have h2 : Json.str "Jane Doe" = Json.str s := hs
      injection h2 with h3
      subst h3
      decide)
    rfl

/-- C4, counterexample.  The claim says that whenever some plan element
has the question `What's your full name` the answer of the first such
element is returned as the name; but for the plan
`[0, {"question": "What's your full name", "answer": "Jane Doe"}]` the
name scan raises on the element `0` before reaching the match, and the
function returns `"N/A"`, not `"Jane Doe"`. -/
theorem C4_counterexample :
    (parse_metadata (MetaVal.ofDict [("plan", Json.arr
        [Json.num 0, Json.obj [("question", Json.str nameQuestion), ("answer", Json.str "Jane Doe")]])])).1
      ≠ Json.str "Jane Doe" := by
  intro h
  have h2 : Json.str "N/A" = Json.str "Jane Doe" := h
  injection h2 with hs
  exact absurd hs (by decide)

/-- C4 (amended): when every plan element before the first element whose
question matches the name question is itself a non-matching mapping, the
returned name is that first matching element's answer field (Python
`None`, i.e. null, when the key is absent). -/
theorem C4_first_name_answer (kvs : List (String × Json))
    (pre rest : List Json) (kq : List (String × Json))
    (hplan : jGet kvs "plan" = some (Json.arr (pre ++ Json.obj kq :: rest)))
    (hall : ∀ j ∈ pre, ∃ m, j = Json.obj m ∧ questionMatches m = false)
    (hq : questionMatches kq = true) :
    (parse_metadata (MetaVal.ofDict kvs)).1 = jGetD kq "answer" Json.null := by
  simp [parse_metadata, parseData, jGetD, hplan, planResult,
    nameScan_append pre rest kq hall hq]

/-- C4 witness: a plan whose single element carries the name question with
answer Jane Doe yields the name Jane Doe. -/
theorem C4_first_name_answer_witness :
    (parse_metadata (MetaVal.ofDict [("plan", Json.arr
        [Json.obj [("question", Json.str nameQuestion), ("answer", Json.str "Jane Doe")]])])).1
      = Json.str "Jane Doe" :=
  C4_first_name_answer
    [("plan", Json.arr
      [Json.obj [("question", Json.str nameQuestion), ("answer", Json.str "Jane Doe")]])]
    [] []
    [("question", Json.str nameQuestion), ("answer", Json.str "Jane Doe")]
    rfl (fun j hj => absurd hj (List.not_mem_nil j)) (by decide)

/-- C5: the date filter keeps a record exactly when it was present and its
submission date lies in the inclusive range: equality with either boundary
is kept, a date strictly outside is dropped. -/
theorem C5_date_filter (s e : Int) (rs : List Record) (r : Record) :
    r ∈ dateFilter s e rs ↔
      r ∈ rs ∧ s ≤ r.createdDate ∧ r.createdDate ≤ e := by
  simp [dateFilter, List.mem_filter]

/-- C6, counterexample.  The claim says that a metadata value whose plan
holds no name-question element makes the function return exactly
`("N/A", [])`; but for the plan `[{"question": "Age", "answer": "30"}]`
the function returns `("N/A", [("Age", "30")])`, whose Q&A list is not
empty. -/
theorem C6_counterexample :
    parse_metadata (MetaVal.ofStr (some (Json.obj [("plan", Json.arr
        [Json.obj [("question", Json.str "Age"), ("answer", Json.str "30")]])])))
      ≠ (Json.str "N/A", ([] : List (Json × Json))) := by
  intro h
  have h2 : ([(Json.str "Age", Json.str "30")] : List (Json × Json)) = [] :=
    congrArg Prod.snd h
  exact absurd (congrArg List.length h2) (by decide)

/-- C6 (amended): when the plan list has no mapping element matching the
name question the returned name component is the sentinel `"N/A"` (the
Q&A list being whatever C1 prescribes); and a metadata value that is
neither a string nor a mapping (for example `None`), or a string that is
not valid JSON, yields `("N/A", [])`. -/
theorem C6_missing_name_sentinel (kvs : List (String × Json)) (xs : List Json)
    (hplan : jGet kvs "plan" = some (Json.arr xs))
    (hnone : ∀ j ∈ xs, ∀ m, j = Json.obj m → questionMatches m = false) :
    (parse_metadata (MetaVal.ofStr (some (Json.obj kvs)))).1 = Json.str "N/A" ∧
    parse_metadata MetaVal.other = (Json.str "N/A", []) ∧
    parse_metadata (MetaVal.ofStr none) = (Json.str "N/A", []) := by
  refine ⟨?_, rfl, rfl⟩
  rcases nameScan_no_match xs hnone with hn | hn <;>
    simp [parse_metadata, parseData, jGetD, hplan, planResult, hn]

/-- C6 witness: a one-element plan asking only for the age yields the
sentinel name. -/
theorem C6_missing_name_sentinel_witness :
    (parse_metadata (MetaVal.ofStr (some (Json.obj [("plan", Json.arr
        [Json.obj [("question", Json.str "Age"), ("answer", Json.str "30")]])])))).1
      = Json.str "N/A" ∧
    parse_metadata MetaVal.other = (Json.str "N/A", []) ∧
    parse_metadata (MetaVal.ofStr none) = (Json.str "N/A", []) :=
  C6_missing_name_sentinel _ _ rfl
    (by
      intro j hj m hjm
      rw [List.mem_singleton] at hj
      subst hj
      injection hjm with hm
      subst hm
      decide)

/-- C7: a mapping metadata value without a plan key, and one whose plan
value is not a list, both give `("N/A", [])` — the same output as a
malformed (undecodable) string, so the three cases are observably
identical. -/
theorem C7_plan_default (kvs : List (String × Json)) (p : Json) :
    (jGet kvs "plan" = none →
        parse_metadata (MetaVal.ofDict kvs) = (Json.str "N/A", [])) ∧
    (jGet kvs "plan" = some p → (∀ xs, p ≠ Json.arr xs) →
        parse_metadata (MetaVal.ofDict kvs) = (Json.str "N/A", [])) ∧
    parse_metadata (MetaVal.ofStr none) = (Json.str "N/A", []) := by
  refine ⟨fun hnone => ?_, fun hsome hnotarr => ?_, rfl⟩
  · simp [parse_metadata, parseData, jGetD, hnone, planResult, nameScan]
  · cases p with
    | arr xs => exact absurd rfl (hnotarr xs)
    | null => simp [parse_metadata, parseData, jGetD, hsome, planResult]
    | bool b => simp [parse_metadata, parseData, jGetD, hsome, planResult]
    | num n => simp [parse_metadata, parseData, jGetD, hsome, planResult]
    | str s => simp [parse_metadata, parseData, jGetD, hsome, planResult]
    | obj m => simp [parse_metadata, parseData, jGetD, hsome, planResult]

/-- C7 witness: a dict without a plan key, and a dict whose plan is the
number 5, both give the sentinel pair. -/
theorem C7_plan_default_witness :
    parse_metadata (MetaVal.ofDict [("a", Json.num 1)]) = (Json.str "N/A", []) ∧
    parse_metadata (MetaVal.ofDict [("plan", Json.num 5)]) = (Json.str "N/A", []) :=
  ⟨(C7_plan_default [("a", Json.num 1)] Json.null).1 rfl,
   (C7_plan_default [("plan", Json.num 5)] (Json.num 5)).2.1 rfl
     (fun _ h => Json.noConfusion h)⟩

/-- C8: the N/A defaults apply only to absent keys, not to explicit
nulls: a plan item whose answer key holds null contributes a pair with a
null answer, and when the first name-question match has no answer key or
a null one the returned name is null, not the sentinel. -/
theorem C8_null_not_defaulted (kvs : List (String × Json)) (q : Json) :
    (jGet kvs "question" = some q → jGet kvs "answer" = some Json.null →
        (parse_metadata (MetaVal.ofDict [("plan", Json.arr [Json.obj kvs])])).2
          = [(q, Json.null)]) ∧
    (questionMatches kvs = true →
        (jGet kvs "answer" = none ∨ jGet kvs "answer" = some Json.null) →
        (parse_metadata (MetaVal.ofDict [("plan", Json.arr [Json.obj kvs])])).1
          = Json.null) := by
  have hpm : parse_metadata (MetaVal.ofDict [("plan", Json.arr [Json.obj kvs])])
      = planResult (Json.arr [Json.obj kvs]) := rfl
  constructor
  · intro hqk hak
    rw [hpm]
    by_cases hqm : questionMatches kvs = true <;>
      simp [planResult, nameScan, hqm, qaOf, jGetD, hqk, hak]
  · intro hqm hak
    rw [hpm]
    rcases hak with hak | hak <;>
      simp [planResult, nameScan, hqm, jGetD, hak]

/-- C8 witness: an explicit null answer survives as null in the pair, and
a name-question item without an answer key gives a null name. -/
theorem C8_null_not_defaulted_witness :
    (parse_metadata (MetaVal.ofDict [("plan", Json.arr
        [Json.obj [("question", Json.str "Q"), ("answer", Json.null)]])])).2
      = [(Json.str "Q", Json.null)] ∧
    (parse_metadata (MetaVal.ofDict [("plan", Json.arr
        [Json.obj [("question", Json.str nameQuestion)]])])).1
      = Json.null :=
  ⟨(C8_null_not_defaulted [("question", Json.str "Q"), ("answer", Json.null)]
      (Json.str "Q")).1 rfl rfl,
   (C8_null_not_defaulted [("question", Json.str nameQuestion)] Json.null).2
      (by decide) (Or.inl rfl)⟩

/-- C9, counterexample.  The claim asserts a filtered subsequence for
every search term, but at the term `(` — an unterminated group —
`re.compile` raises `re.error`, the exception propagates out of the
filter, and the program produces no filtered record set at all. -/
theorem C9_counterexample :
    filtered_df 0 100 "(" [janeRecord] = FilterOutcome.raised :=
  rfl

/-- C9 (amended): the filters only remove records on every run that
completes: for every loaded record set, date range, and search term on
which the search filter returns a record set (the empty term, or any term
compiling as a regular expression), the filtered record set is a sublist
— an order-preserving subsequence of the very same record values — of
the loaded set.  A term whose compilation raises yields no filtered set
instead. -/
theorem C9_filters_sublist (s e : Int) (q : String) (rs out : List Record)
    (hrun : filtered_df s e q rs = FilterOutcome.ok out) :
    List.Sublist out rs := by
  have hdate : List.Sublist (dateFilter s e rs) rs := List.filter_sublist rs
  rw [filtered_df, searchFilter] at hrun
  by_cases hq : q = ""
  · rw [if_pos hq] at hrun
    injection hrun with hout
    subst hout
    exact hdate
  · rw [if_neg hq] at hrun
    cases hcomp : compilePat q with
    | ok p =>
        rw [hcomp] at hrun
        injection hrun with hout
        subst hout
        exact (List.filter_sublist _).trans hdate
    | error => rw [hcomp] at hrun; exact FilterOutcome.noConfusion hrun
    | unsupported => rw [hcomp] at hrun; exact FilterOutcome.noConfusion hrun

/-- C9 witness: a completed run over the query `Doe` is a sublist of the
input. -/
theorem C9_filters_sublist_witness :
    List.Sublist [janeRecord] [janeRecord] :=
  C9_filters_sublist 0 100 "Doe" [janeRecord] [janeRecord] rfl

/-- C10: an empty search string disables the search filter entirely
(every record is kept), and a record whose derived name is null is never
matched by the name test (`na=False` makes the missing comparison False
without raising), so on every completed run of a non-empty search it
survives exactly when the compiled query matches its identifier's string
form. -/
theorem C10_empty_query_null_name (q : String) (rs out : List Record) (r : Record) :
    searchFilter "" rs = FilterOutcome.ok rs ∧
    (Record.name r = Json.null → q ≠ "" →
      searchFilter q rs = FilterOutcome.ok out →
      (r ∈ out ↔
        r ∈ rs ∧ ∃ p, compilePat q = CompileResult.ok p ∧ idMatches p r = true)) := by
  refine ⟨by simp [searchFilter], fun hn hq hrun => ?_⟩
  rw [searchFilter, if_neg hq] at hrun
  cases hcomp : compilePat q with
  | ok p =>
      rw [hcomp] at hrun
      injection hrun with hout
      subst hout
      simp [List.mem_filter, hcomp, nameMatches, hn]
  | error => rw [hcomp] at hrun; exact FilterOutcome.noConfusion hrun
  | unsupported => rw [hcomp] at hrun; exact FilterOutcome.noConfusion hrun

/-- C10 witness: the null-named record with identifier 7 is kept by the
query 7 through its identifier alone. -/
theorem C10_empty_query_null_name_witness :
    searchFilter "" [anonRecord] = FilterOutcome.ok [anonRecord] ∧
    (anonRecord ∈ [anonRecord] ↔
      anonRecord ∈ [anonRecord] ∧
        ∃ p, compilePat "7" = CompileResult.ok p ∧ idMatches p anonRecord = true) :=
  ⟨(C10_empty_query_null_name "7" [anonRecord] [anonRecord] anonRecord).1,
   (C10_empty_query_null_name "7" [anonRecord] [anonRecord] anonRecord).2
     rfl (by decide) rfl⟩

end FFP
